import Mathlib

/-!
Verification of the damage-analytics core of the Hiring-Sprint-2025
repository: severity classification (`utils.get_damage_severity`), the repair
cost estimator (`utils.estimate_repair_details`), the detection normalizer
(`analyzer.analyze_image_bytes`), and the cross-image damage matcher
(`compare_damage._iou` / `compare_damage.find_new_damages`).

Python floats are embedded as exact rationals; Python's built-in `round`
(round-half-to-even on the integer part) is modelled by `pyRound` /
`pyRoundTo`.
-/

namespace CarDamage

/-- Embedding of Python `round(x)`: nearest integer, ties to even. -/
def pyRound (x : ℚ) : ℤ :=
  if x - (⌊x⌋ : ℚ) < 1/2 then ⌊x⌋
  else if 1/2 < x - (⌊x⌋ : ℚ) then ⌊x⌋ + 1
  else if ⌊x⌋ % 2 = 0 then ⌊x⌋ else ⌊x⌋ + 1

/-- Embedding of Python `round(x, n)` for `n` decimal places. -/
def pyRoundTo (n : ℕ) (x : ℚ) : ℚ := (pyRound (x * 10 ^ n) : ℚ) / 10 ^ n

theorem floor_le_pyRound (x : ℚ) : ⌊x⌋ ≤ pyRound x := by
  unfold pyRound
  split
  · exact le_refl _
  · split
    · omega
    · split <;> omega

theorem pyRound_le_floor_add_one (x : ℚ) : pyRound x ≤ ⌊x⌋ + 1 := by
  unfold pyRound
  split
  · omega
  · split
    · omega
    · split <;> omega

theorem le_pyRound {n : ℤ} {x : ℚ} (h : (n : ℚ) ≤ x) : n ≤ pyRound x :=
  le_trans (Int.le_floor.mpr h) (floor_le_pyRound x)

theorem pyRound_le {n : ℤ} {x : ℚ} (h : x ≤ (n : ℚ)) : pyRound x ≤ n := by
  rcases lt_or_ge (⌊x⌋) n with hlt | hge
  · exact le_trans (pyRound_le_floor_add_one x) (by omega)
  · have hxg : (n : ℚ) ≤ (⌊x⌋ : ℚ) := by exact_mod_cast hge
    have hfx : (⌊x⌋ : ℚ) ≤ x := Int.floor_le x
    have hxn : x = (n : ℚ) := le_antisymm h (le_trans hxg hfx)
    have hfl : ⌊x⌋ = n := by rw [hxn]; exact Int.floor_intCast n
    unfold pyRound
    rw [if_pos]
    · omega
    · rw [hfl, hxn]; norm_num

theorem pyRound_intCast (n : ℤ) : pyRound (n : ℚ) = n := by
  unfold pyRound
  rw [Int.floor_intCast, if_pos (by norm_num)]

theorem pyRoundTo_le {n : ℕ} {x q : ℚ} (h0 : 0 ≤ x) (h1 : x ≤ q) :
    0 ≤ pyRoundTo n x ∧ pyRoundTo n x ≤ q + 1 / 10 ^ n := by
  have hp : (0 : ℚ) < 10 ^ n := by positivity
  constructor
  · apply div_nonneg _ (le_of_lt hp)
    have : (0 : ℤ) ≤ pyRound (x * 10 ^ n) := le_pyRound (by positivity)
    exact_mod_cast this
  · rw [pyRoundTo, div_le_iff hp]
    have h2 : pyRound (x * 10 ^ n) ≤ ⌊x * 10 ^ n⌋ + 1 := pyRound_le_floor_add_one _
    have h3 : ((⌊x * 10 ^ n⌋ : ℚ)) ≤ x * 10 ^ n := Int.floor_le _
    have h4 : x * 10 ^ n ≤ q * 10 ^ n := by
      exact mul_le_mul_of_nonneg_right h1 (le_of_lt hp)
    have h5 : (q + 1 / 10 ^ n) * 10 ^ n = q * 10 ^ n + 1 := by field_simp
    rw [h5]
    have : ((pyRound (x * 10 ^ n) : ℚ)) ≤ (⌊x * 10 ^ n⌋ : ℚ) + 1 := by exact_mod_cast h2
    linarith

/-- `pyRoundTo` keeps a value between two representable `n`-decimal bounds. -/
theorem pyRoundTo_mem {n : ℕ} {lo hi : ℤ} {x : ℚ}
    (hlo : (lo : ℚ) ≤ x * 10 ^ n) (hhi : x * 10 ^ n ≤ (hi : ℚ)) :
    (lo : ℚ) / 10 ^ n ≤ pyRoundTo n x ∧ pyRoundTo n x ≤ (hi : ℚ) / 10 ^ n := by
  have hp : (0 : ℚ) < 10 ^ n := by positivity
  have h1 : lo ≤ pyRound (x * 10 ^ n) := le_pyRound hlo
  have h2 : pyRound (x * 10 ^ n) ≤ hi := pyRound_le hhi
  constructor
  · rw [pyRoundTo]
    gcongr
  · rw [pyRoundTo]
    gcongr

/-! ### Severity Classifier (`utils.get_damage_severity`) -/

/-- Embedding of `utils.get_damage_severity`: severity label and area ratio. -/
def get_damage_severity (width height img_width img_height : ℚ) : String × ℚ :=
  let damage_area := max 0 width * max 0 height
  let image_area := max 1 (img_width * img_height)
  let ratio := damage_area / image_area
  let bbox_pixels := damage_area
  let low_threshold := max (4/100) (2500 / image_area)
  let medium_threshold := max (12/100) (8000 / image_area)
  let severity :=
    if bbox_pixels < 1500 then "low"
    else if ratio < low_threshold then "low"
    else if ratio < medium_threshold then "medium"
    else "high"
  (severity, ratio)

/-- The severity decision exactly as the claim words it: ratio against
`max(0.04, 2500/image_area)` and `max(0.12, 8000/image_area)` after the
1500 px² absolute-size override. -/
def severity_spec (width height img_width img_height : ℚ) : String × ℚ :=
  let image_area := max 1 (img_width * img_height)
  let ratio := (max 0 width * max 0 height) / image_area
  let severity :=
    if max 0 width * max 0 height < 1500 then "low"
    else if ratio < max (4/100) (2500 / image_area) then "low"
    else if ratio < max (12/100) (8000 / image_area) then "medium"
    else "high"
  (severity, ratio)

/-! ### Repair Cost Estimator (`utils.estimate_repair_details`) -/

def LABOR_RATE : ℚ := 70
def MATERIAL_RATE : ℚ := 50

structure TypeProfile where
  base_hours : ℚ
  material_factor : ℚ
deriving DecidableEq, Repr

/-- Embedding of `utils.TYPE_COMPLEXITY` (the `default` entry kept apart). -/
def TYPE_COMPLEXITY : List (String × TypeProfile) :=
  [("scratch", ⟨8/10, 5/10⟩),
   ("scratches", ⟨8/10, 5/10⟩),
   ("paint", ⟨1, 7/10⟩),
   ("dent", ⟨15/10, 1⟩),
   ("ding", ⟨12/10, 8/10⟩),
   ("crack", ⟨11/10, 12/10⟩),
   ("glass shatter", ⟨22/10, 16/10⟩),
   ("lamp broken", ⟨13/10, 11/10⟩),
   ("tire flat", ⟨1, 9/10⟩),
   ("broken", ⟨18/10, 14/10⟩)]

def DEFAULT_PROFILE : TypeProfile := ⟨1, 9/10⟩

/-- Python `str.lower()` on the character data (class names are ASCII). -/
def toLowerStr (s : String) : String := ⟨s.data.map Char.toLower⟩

/-- `TYPE_COMPLEXITY.get(damage_type.lower(), TYPE_COMPLEXITY["default"])`. -/
def typeProfile (damage_type : String) : TypeProfile :=
  ((TYPE_COMPLEXITY.find? (fun p => p.1 == toLowerStr damage_type)).map
    Prod.snd).getD DEFAULT_PROFILE

/-- Embedding of `utils.SEVERITY_LOAD` (the `unknown` entry kept apart). -/
def SEVERITY_LOAD : List (String × ℚ) :=
  [("low", 7/10), ("medium", 1), ("high", 15/10), ("unknown", 85/100)]

def UNKNOWN_LOAD : ℚ := 85/100

/-- `SEVERITY_LOAD.get(severity, SEVERITY_LOAD["unknown"])`. -/
def severityLoad (severity : String) : ℚ :=
  ((SEVERITY_LOAD.find? (fun p => p.1 == severity)).map Prod.snd).getD UNKNOWN_LOAD

def effort_multiplier (area_ratio : ℚ) : ℚ :=
  max (6/10) (min (25/10) (9/10 + area_ratio * 5))

def confidence_factor (confidence : ℚ) : ℚ :=
  max (55/100) (min (11/10) (75/100 + confidence * (35/100)))

def labor_hours (damage_type severity : String) (area_ratio : ℚ) : ℚ :=
  (typeProfile damage_type).base_hours * severityLoad severity *
    effort_multiplier area_ratio

def material_units (damage_type : String) (area_ratio : ℚ) : ℚ :=
  (typeProfile damage_type).material_factor *
    (7/10 + effort_multiplier area_ratio * (5/10))

def labor_cost (damage_type severity : String) (area_ratio : ℚ) : ℚ :=
  LABOR_RATE * labor_hours damage_type severity area_ratio

def material_cost (damage_type : String) (area_ratio : ℚ) : ℚ :=
  MATERIAL_RATE * material_units damage_type area_ratio

def overhead_cost (damage_type severity : String) (area_ratio : ℚ) : ℚ :=
  (15/100) * (labor_cost damage_type severity area_ratio +
    material_cost damage_type area_ratio)

def raw_total (damage_type severity : String) (area_ratio confidence : ℚ) : ℚ :=
  (labor_cost damage_type severity area_ratio +
    material_cost damage_type area_ratio +
    overhead_cost damage_type severity area_ratio) * confidence_factor confidence

def total_cost (damage_type severity : String) (area_ratio confidence : ℚ) : ℤ :=
  pyRound (raw_total damage_type severity area_ratio confidence / 10) * 10

/-- The dict returned by `utils.estimate_repair_details`. -/
structure RepairEstimate where
  damage_type : String
  severity : String
  area_ratio : ℚ
  labor_hours : ℚ
  material_units : ℚ
  labor_cost : ℚ
  material_cost : ℚ
  overhead_cost : ℚ
  confidence_factor : ℚ
  total_cost : ℤ
deriving DecidableEq, Repr

/-- Embedding of `utils.estimate_repair_details`. -/
def estimate_repair_details (dt sev : String) (area_ratio confidence : ℚ) :
    RepairEstimate where
  damage_type := dt
  severity := sev
  area_ratio := pyRoundTo 4 area_ratio
  labor_hours := pyRoundTo 2 (labor_hours dt sev area_ratio)
  material_units := pyRoundTo 2 (material_units dt area_ratio)
  labor_cost := pyRoundTo 2 (labor_cost dt sev area_ratio)
  material_cost := pyRoundTo 2 (material_cost dt area_ratio)
  overhead_cost := pyRoundTo 2 (overhead_cost dt sev area_ratio)
  confidence_factor := pyRoundTo 2 (confidence_factor confidence)
  total_cost := total_cost dt sev area_ratio confidence

/-! ### Detection records and the Normalizer (`analyzer.analyze_image_bytes`) -/

/-- One entry of the detection payload produced by `analyzer.analyze_image_bytes`
(the dict fields `class`, `type`, `conf`, `confidence`, `x`, `y`, `width`,
`height`, `area_ratio`, `severity`, `repair_cost`, `repair_details`). -/
structure DetectionRecord where
  cls : String
  type : String
  conf : ℚ
  confidence : ℚ
  x : ℚ
  y : ℚ
  width : ℚ
  height : ℚ
  area_ratio : ℚ
  severity : String
  repair_cost : ℤ
  repair_details : RepairEstimate
deriving DecidableEq, Repr

/-- One raw detection as delivered by the external detector: a pixel-space
`xyxy` box, a confidence and a class id. -/
structure RawDet where
  x1 : ℚ
  y1 : ℚ
  x2 : ℚ
  y2 : ℚ
  conf : ℚ
  cls_id : ℕ
deriving DecidableEq, Repr

/-- A raster image successfully decoded by `cv2.imdecode`: by the decoder
contract a decoded image always has positive pixel dimensions. -/
structure DecodedImage where
  img_w : ℚ
  img_h : ℚ
  w_pos : 0 < img_w
  h_pos : 0 < img_h

inductive AnalyzeError
  | invalidImage
deriving DecidableEq, Repr

/-- The per-detection body of the loop in `analyzer.analyze_image_bytes`. -/
def record_of_raw (names : ℕ → Option String) (W H : ℚ) (d : RawDet) :
    DetectionRecord :=
  let class_name := (names d.cls_id).getD ("class_" ++ toString d.cls_id)
  let width := d.x2 - d.x1
  let height := d.y2 - d.y1
  let sev_ratio := get_damage_severity width height W H
  let severity := sev_ratio.1
  let area_ratio := sev_ratio.2
  let repair_details := estimate_repair_details class_name severity area_ratio d.conf
  { cls := class_name
    type := class_name
    conf := pyRoundTo 4 d.conf
    confidence := pyRoundTo 2 (d.conf * 100)
    x := pyRoundTo 4 (d.x1 / W)
    y := pyRoundTo 4 (d.y1 / H)
    width := pyRoundTo 4 (width / W)
    height := pyRoundTo 4 (height / H)
    area_ratio := pyRoundTo 4 area_ratio
    severity := severity
    repair_cost := repair_details.total_cost
    repair_details := repair_details }

/-- Embedding of `analyzer.analyze_image_bytes`, with the external decoder
(`cv2.imdecode`), the detector (`model.predict`) and the class-name mapping
(`model.names`) as explicit dependencies.  A decode failure raises before any
detection work. -/
def analyze_image_bytes (decode : List ℕ → Option DecodedImage)
    (detect : DecodedImage → List RawDet) (names : ℕ → Option String)
    (image_bytes : List ℕ) : Except AnalyzeError (List DetectionRecord) :=
  match decode image_bytes with
  | none => .error .invalidImage
  | some img => .ok ((detect img).map (record_of_raw names img.img_w img.img_h))

/-! ### Cross-image matcher (`compare_damage._iou`, `find_new_damages`) -/

/-- Embedding of `compare_damage._det_to_xyxy`. -/
def det_to_xyxy (det : DetectionRecord) : ℚ × ℚ × ℚ × ℚ :=
  (det.x, det.y, det.x + det.width, det.y + det.height)

/-- Embedding of `compare_damage._iou` on `xyxy` boxes. -/
def iou (box_a box_b : ℚ × ℚ × ℚ × ℚ) : ℚ :=
  let (ax1, ay1, ax2, ay2) := box_a
  let (bx1, by1, bx2, by2) := box_b
  let inter_x1 := max ax1 bx1
  let inter_y1 := max ay1 by1
  let inter_x2 := min ax2 bx2
  let inter_y2 := min ay2 by2
  let inter_w := max 0 (inter_x2 - inter_x1)
  let inter_h := max 0 (inter_y2 - inter_y1)
  let inter_area := inter_w * inter_h
  let area_a := max 0 (ax2 - ax1) * max 0 (ay2 - ay1)
  let area_b := max 0 (bx2 - bx1) * max 0 (by2 - by1)
  let denom := area_a + area_b - inter_area
  if denom > 0 then inter_area / denom else 0

/-- The denominator `areaA + areaB − intersection` of `_iou`. -/
def iou_denom (box_a box_b : ℚ × ℚ × ℚ × ℚ) : ℚ :=
  let (ax1, ay1, ax2, ay2) := box_a
  let (bx1, by1, bx2, by2) := box_b
  let inter_w := max 0 (min ax2 bx2 - max ax1 bx1)
  let inter_h := max 0 (min ay2 by2 - max ay1 by1)
  max 0 (ax2 - ax1) * max 0 (ay2 - ay1) +
    max 0 (bx2 - bx1) * max 0 (by2 - by1) - inter_w * inter_h

/-- The `pickup_by_class` dict of `find_new_damages`, built exactly as the
source does (`setdefault(det["class"], []).append(det)`), viewed as the map
from a class name to its bucket. -/
def pickup_by_class (pickup_detections : List DetectionRecord) :
    String → List DetectionRecord :=
  pickup_detections.foldl
    (fun m det => fun c => if c = det.cls then m c ++ [det] else m c)
    (fun _ => [])

/-- The inner candidate loop of `find_new_damages`: does any same-class pickup
box overlap the return box with IoU at least the threshold? -/
def matchedInPickup (buckets : String → List DetectionRecord)
    (iou_threshold : ℚ) (ret_det : DetectionRecord) : Bool :=
  (buckets ret_det.cls).any
    (fun cand => decide (iou (det_to_xyxy ret_det) (det_to_xyxy cand) ≥ iou_threshold))

/-- Embedding of `compare_damage.find_new_damages`. -/
def find_new_damages (pickup_detections return_detections : List DetectionRecord)
    (iou_threshold : ℚ) : List DetectionRecord :=
  let buckets := pickup_by_class pickup_detections
  return_detections.filter
    (fun ret_det => !matchedInPickup buckets iou_threshold ret_det)

/-- A concrete decoded image (10×10) used to instantiate the normalizer
theorems on an explicit input. -/
def sampleImage : DecodedImage := ⟨10, 10, by norm_num, by norm_num⟩

/-! ### Helper lemmas -/

theorem pyRoundTo_unit {n : ℕ} {q : ℚ} (h0 : 0 ≤ q) (h1 : q ≤ 1) :
    0 ≤ pyRoundTo n q ∧ pyRoundTo n q ≤ 1 := by
  have hp : (0 : ℚ) < 10 ^ n := by positivity
  have hm := @pyRoundTo_mem n 0 (10 ^ n) q
    (by positivity) (by push_cast; nlinarith)
  refine ⟨by simpa using hm.1, ?_⟩
  have h2 := hm.2
  rwa [show (((10:ℤ) ^ n : ℤ) : ℚ) / 10 ^ n = 1 by push_cast; field_simp] at h2

theorem typeProfile_pos (dt : String) :
    0 < (typeProfile dt).base_hours ∧ 0 < (typeProfile dt).material_factor := by
  rw [typeProfile]
  cases h : TYPE_COMPLEXITY.find? (fun p => p.1 == toLowerStr dt) with
  | none => simp [DEFAULT_PROFILE]
  | some pr =>
    have hm : pr ∈ TYPE_COMPLEXITY := List.mem_of_find?_eq_some h
    simp only [Option.map_some', Option.getD_some]
    fin_cases hm <;> constructor <;> norm_num

theorem severityLoad_pos (sev : String) : 0 < severityLoad sev := by
  rw [severityLoad]
  cases h : SEVERITY_LOAD.find? (fun p => p.1 == sev) with
  | none => simp [UNKNOWN_LOAD]
  | some pr =>
    have hm : pr ∈ SEVERITY_LOAD := List.mem_of_find?_eq_some h
    simp only [Option.map_some', Option.getD_some]
    fin_cases hm <;> norm_num

theorem effort_multiplier_bounds (a : ℚ) :
    6/10 ≤ effort_multiplier a ∧ effort_multiplier a ≤ 25/10 := by
  rw [effort_multiplier]
  exact ⟨le_max_left _ _, max_le (by norm_num) (min_le_left _ _)⟩

theorem confidence_factor_bounds (c : ℚ) :
    55/100 ≤ confidence_factor c ∧ confidence_factor c ≤ 11/10 := by
  rw [confidence_factor]
  exact ⟨le_max_left _ _, max_le (by norm_num) (min_le_left _ _)⟩

theorem raw_total_nonneg (dt sev : String) (a c : ℚ) :
    0 ≤ raw_total dt sev a c := by
  obtain ⟨hb, hmf⟩ := typeProfile_pos dt
  have hs := severityLoad_pos sev
  obtain ⟨he1, -⟩ := effort_multiplier_bounds a
  obtain ⟨hc1, -⟩ := confidence_factor_bounds c
  have he0 : 0 ≤ effort_multiplier a := by linarith
  have hL : 0 ≤ (typeProfile dt).base_hours * severityLoad sev *
      effort_multiplier a := mul_nonneg (mul_nonneg hb.le hs.le) he0
  have hM : 0 ≤ (typeProfile dt).material_factor *
      (7/10 + effort_multiplier a * (5/10)) := mul_nonneg hmf.le (by linarith)
  rw [raw_total, overhead_cost, labor_cost, material_cost, labor_hours,
    material_units, LABOR_RATE, MATERIAL_RATE]
  apply mul_nonneg _ (by linarith)
  linarith

theorem total_cost_nonneg_dvd (dt sev : String) (a c : ℚ) :
    0 ≤ total_cost dt sev a c ∧ (10 : ℤ) ∣ total_cost dt sev a c := by
  constructor
  · rw [total_cost]
    have hq : ((0 : ℤ) : ℚ) ≤ raw_total dt sev a c / 10 := by
      have := raw_total_nonneg dt sev a c
      push_cast
      positivity
    exact mul_nonneg (le_pyRound hq) (by norm_num)
  · rw [total_cost]
    exact dvd_mul_left 10 _

theorem tp_scratch : typeProfile "scratch" = ⟨8/10, 5/10⟩ := by
  rw [typeProfile, show toLowerStr "scratch" = "scratch" from by decide]
  simp [TYPE_COMPLEXITY, List.find?]

theorem sl_low : severityLoad "low" = 7/10 := by
  simp [severityLoad, SEVERITY_LOAD, List.find?]

/-! ### Claim theorems -/

/-- C2: for positive image dimensions, `get_damage_severity` computes
`ratio = (max(0,width)*max(0,height)) / max(1, image_width*image_height)` and
decides in order: pixel area below 1500 → low; ratio below
`max(0.04, 2500/image_area)` → low; ratio below `max(0.12, 8000/image_area)` →
medium; else high.  In particular a 200×200 box on a 1000×1000 image yields
ratio 0.04 and severity medium. -/
theorem severity_decision_spec (w h iw ih : ℚ) (hiw : 0 < iw) (hih : 0 < ih) :
    get_damage_severity w h iw ih = severity_spec w h iw ih ∧
    get_damage_severity 200 200 1000 1000 = ("medium", 4/100) := by
  constructor
  · rfl
  · rw [get_damage_severity]
    norm_num [max_def]

theorem severity_decision_spec_witness :
    (0:ℚ) < 1000 ∧
    (get_damage_severity 200 200 1000 1000 = severity_spec 200 200 1000 1000 ∧
      get_damage_severity 200 200 1000 1000 = ("medium", 4/100)) :=
  ⟨by norm_num, severity_decision_spec 200 200 1000 1000 (by norm_num) (by norm_num)⟩

/-- C10: on an image whose total pixel area is below 1500, every box that fits
inside the image (width ≤ image width, height ≤ image height) is classified
low, because its pixel area is necessarily below the 1500 px² override. -/
theorem tiny_image_severity_low (w h iw ih : ℚ) (hiw : 0 < iw) (hih : 0 < ih)
    (harea : iw * ih < 1500) (hw : w ≤ iw) (hh : h ≤ ih) :
    (get_damage_severity w h iw ih).1 = "low" := by
  have h1 : max 0 w * max 0 h < 1500 := by
    have hw2 : max 0 w ≤ iw := max_le hiw.le hw
    have hh2 : max 0 h ≤ ih := max_le hih.le hh
    have := mul_le_mul hw2 hh2 (le_max_left 0 h) hiw.le
    linarith
  simp only [get_damage_severity, if_pos h1]

theorem tiny_image_severity_low_witness :
    (get_damage_severity 30 40 30 40).1 = "low" :=
  tiny_image_severity_low 30 40 30 40 (by norm_num) (by norm_num)
    (by norm_num) (by norm_num) (by norm_num)

/-- C3: with the default rates 70 and 50, the estimator on
(`"scratch"`, `"low"`, area_ratio 0.01, confidence 0.9) computes
effort_multiplier 0.95, confidence_factor 1.065, labor_hours 0.532,
material_units 0.5875, labor_cost 37.24, material_cost 29.375,
overhead_cost 9.99225 (≈ 9.992), raw_total 81.58672125 (≈ 81.59), and
total_cost exactly 80. -/
theorem scenario_b_cost_breakdown :
    LABOR_RATE = 70 ∧ MATERIAL_RATE = 50 ∧
    effort_multiplier (1/100) = 95/100 ∧
    confidence_factor (9/10) = (1.065 : ℚ) ∧
    labor_hours "scratch" "low" (1/100) = (0.532 : ℚ) ∧
    material_units "scratch" (1/100) = (0.5875 : ℚ) ∧
    labor_cost "scratch" "low" (1/100) = (37.24 : ℚ) ∧
    material_cost "scratch" (1/100) = (29.375 : ℚ) ∧
    overhead_cost "scratch" "low" (1/100) = (9.99225 : ℚ) ∧
    raw_total "scratch" "low" (1/100) (9/10) = (81.58672125 : ℚ) ∧
    (estimate_repair_details "scratch" "low" (1/100) (9/10)).total_cost = 80 := by
  have hem : effort_multiplier (1/100) = 95/100 := by
    rw [effort_multiplier, max_def, min_def]; norm_num
  have hcf : confidence_factor (9/10) = (1.065 : ℚ) := by
    rw [confidence_factor, max_def, min_def]; norm_num
  have hlh : labor_hours "scratch" "low" (1/100) = (0.532 : ℚ) := by
    rw [labor_hours, tp_scratch, sl_low, hem]; norm_num
  have hmu : material_units "scratch" (1/100) = (0.5875 : ℚ) := by
    rw [material_units, tp_scratch, hem]; norm_num
  have hlc : labor_cost "scratch" "low" (1/100) = (37.24 : ℚ) := by
    rw [labor_cost, hlh, LABOR_RATE]; norm_num
  have hmc : material_cost "scratch" (1/100) = (29.375 : ℚ) := by
    rw [material_cost, hmu, MATERIAL_RATE]; norm_num
  have hoc : overhead_cost "scratch" "low" (1/100) = (9.99225 : ℚ) := by
    rw [overhead_cost, hlc, hmc]; norm_num
  have hrt : raw_total "scratch" "low" (1/100) (9/10) = (81.58672125 : ℚ) := by
    rw [raw_total, hlc, hmc, hoc, hcf]; norm_num
  refine ⟨rfl, rfl, hem, hcf, hlh, hmu, hlc, hmc, hoc, hrt, ?_⟩
  show total_cost "scratch" "low" (1/100) (9/10) = 80
  rw [total_cost, hrt]
  norm_num [pyRound]

/-- C4: for any damage type, severity label, nonnegative area ratio and any
confidence, the returned total cost is a nonnegative multiple of 10 and the
returned confidence factor lies in [0.55, 1.1]. -/
theorem estimate_invariants (dt sev : String) (a c : ℚ) (ha : 0 ≤ a) :
    0 ≤ (estimate_repair_details dt sev a c).total_cost ∧
    (10 : ℤ) ∣ (estimate_repair_details dt sev a c).total_cost ∧
    55/100 ≤ (estimate_repair_details dt sev a c).confidence_factor ∧
    (estimate_repair_details dt sev a c).confidence_factor ≤ 11/10 := by
  obtain ⟨h1, h2⟩ := total_cost_nonneg_dvd dt sev a c
  obtain ⟨hc1, hc2⟩ := confidence_factor_bounds c
  have hmem := @pyRoundTo_mem 2 55 110 (confidence_factor c)
    (by push_cast; linarith) (by push_cast; linarith)
  simp only [estimate_repair_details]
  refine ⟨h1, h2, ?_, ?_⟩
  · have := hmem.1
    norm_num at this ⊢
    linarith
  · have := hmem.2
    norm_num at this ⊢
    linarith

theorem estimate_invariants_witness :
    (0:ℚ) ≤ 0 ∧
    (0 ≤ (estimate_repair_details "dent" "high" 0 1).total_cost ∧
      (10 : ℤ) ∣ (estimate_repair_details "dent" "high" 0 1).total_cost ∧
      55/100 ≤ (estimate_repair_details "dent" "high" 0 1).confidence_factor ∧
      (estimate_repair_details "dent" "high" 0 1).confidence_factor ≤ 11/10) :=
  ⟨le_refl 0, estimate_invariants "dent" "high" 0 1 (le_refl 0)⟩

/-- C9: the estimator is total: a damage type whose lowercased form is not in
the table uses the default profile {base_hours 1.0, material_factor 0.9}, an
unrecognized severity uses the unknown load 0.85, and a well-formed estimate
(nonnegative total, multiple of 10) is still returned. -/
theorem estimator_fallback (dt sev : String) (a c : ℚ)
    (hdt : ∀ k ∈ TYPE_COMPLEXITY, k.1 ≠ toLowerStr dt)
    (hsev : ∀ k ∈ SEVERITY_LOAD, k.1 ≠ sev) :
    typeProfile dt = DEFAULT_PROFILE ∧ DEFAULT_PROFILE = ⟨1, 9/10⟩ ∧
    severityLoad sev = 85/100 ∧
    0 ≤ (estimate_repair_details dt sev a c).total_cost ∧
    (10 : ℤ) ∣ (estimate_repair_details dt sev a c).total_cost := by
  have hf1 : TYPE_COMPLEXITY.find? (fun p => p.1 == toLowerStr dt) = none := by
    rw [List.find?_eq_none]
    intro x hx
    simpa using hdt x hx
  have hf2 : SEVERITY_LOAD.find? (fun p => p.1 == sev) = none := by
    rw [List.find?_eq_none]
    intro x hx
    simpa using hsev x hx
  obtain ⟨h1, h2⟩ := total_cost_nonneg_dvd dt sev a c
  refine ⟨by rw [typeProfile, hf1]; rfl, rfl, by rw [severityLoad, hf2]; rfl, h1, h2⟩

theorem estimator_fallback_witness :
    typeProfile "weird" = DEFAULT_PROFILE ∧ DEFAULT_PROFILE = ⟨1, 9/10⟩ ∧
    severityLoad "bogus" = 85/100 ∧
    0 ≤ (estimate_repair_details "weird" "bogus" (1/2) (1/2)).total_cost ∧
    (10 : ℤ) ∣ (estimate_repair_details "weird" "bogus" (1/2) (1/2)).total_cost :=
  estimator_fallback "weird" "bogus" (1/2) (1/2) (by decide) (by decide)

theorem pickup_by_class_spec (p : List DetectionRecord) (c : String) :
    pickup_by_class p c = p.filter (fun d => d.cls == c) := by
  have key : ∀ (l : List DetectionRecord) (acc : String → List DetectionRecord),
      (l.foldl (fun m det => fun s => if s = det.cls then m s ++ [det] else m s)
        acc) c = acc c ++ l.filter (fun d => d.cls == c) := by
    intro l
    induction l with
    | nil => intro acc; simp
    | cons d t ih =>
      intro acc
      rw [List.foldl_cons, ih]
      by_cases hc : c = d.cls
      · simp [List.filter_cons, hc]
      · simp [List.filter_cons, hc, Ne.symm hc]
  simpa using key p (fun _ => [])

/-- C7: `_iou` of a box with itself is 1 when the box has positive width and
height; `_iou` is symmetric; and it is 0 whenever the denominator
`areaA + areaB − intersection` is not positive. -/
theorem iou_self_symm_degenerate (a b : ℚ × ℚ × ℚ × ℚ) :
    (a.1 < a.2.2.1 → a.2.1 < a.2.2.2 → iou a a = 1) ∧
    iou a b = iou b a ∧
    (iou_denom a b ≤ 0 → iou a b = 0) := by
  obtain ⟨ax1, ay1, ax2, ay2⟩ := a
  obtain ⟨bx1, by1, bx2, by2⟩ := b
  refine ⟨?_, ?_, ?_⟩
  · intro hx hy
    simp only at hx hy
    simp only [iou, max_self, min_self]
    have hw : max 0 (ax2 - ax1) = ax2 - ax1 := max_eq_right (by linarith)
    have hh : max 0 (ay2 - ay1) = ay2 - ay1 := max_eq_right (by linarith)
    rw [hw, hh]
    have hApos : 0 < (ax2 - ax1) * (ay2 - ay1) :=
      mul_pos (by linarith) (by linarith)
    have hsum : (ax2 - ax1) * (ay2 - ay1) + (ax2 - ax1) * (ay2 - ay1) -
        (ax2 - ax1) * (ay2 - ay1) = (ax2 - ax1) * (ay2 - ay1) := by ring
    rw [hsum, if_pos hApos]
    exact div_self hApos.ne'
  · simp only [iou]
    rw [max_comm ax1 bx1, max_comm ay1 by1, min_comm ax2 bx2, min_comm ay2 by2,
      add_comm (max 0 (ax2 - ax1) * max 0 (ay2 - ay1))
        (max 0 (bx2 - bx1) * max 0 (by2 - by1))]
  · intro hd
    simp only [iou_denom] at hd
    simp only [iou]
    rw [if_neg (not_lt.mpr hd)]

theorem iou_self_symm_degenerate_witness :
    iou (0, 0, 1, 1) (0, 0, 1, 1) = 1 ∧ iou (0, 0, 0, 5) (2, 2, 2, 3) = 0 :=
  ⟨(iou_self_symm_degenerate (0, 0, 1, 1) (0, 0, 1, 1)).1
      (by norm_num) (by norm_num),
    (iou_self_symm_degenerate (0, 0, 0, 5) (2, 2, 2, 3)).2.2
      (by rw [iou_denom]; norm_num [max_def, min_def])⟩

/-- C1: `find_new_damages` returns exactly the subsequence of the return
records (order and fields untouched) whose class has no pickup record of the
identical class with IoU at least the threshold; empty pickup keeps every
return record, empty return yields the empty list. -/
theorem find_new_damages_spec (p r : List DetectionRecord) (t : ℚ) :
    find_new_damages p r t =
      r.filter (fun ret => !(p.any (fun cand => cand.cls == ret.cls &&
        decide (iou (det_to_xyxy ret) (det_to_xyxy cand) ≥ t)))) ∧
    find_new_damages p [] t = [] ∧
    find_new_damages [] r t = r := by
  have hmain : ∀ (rr : List DetectionRecord), find_new_damages p rr t =
      rr.filter (fun ret => !(p.any (fun cand => cand.cls == ret.cls &&
        decide (iou (det_to_xyxy ret) (det_to_xyxy cand) ≥ t)))) := by
    intro rr
    simp only [find_new_damages]
    apply List.filter_congr
    intro ret _
    rw [matchedInPickup, pickup_by_class_spec, List.any_filter]
  have hempty : find_new_damages [] r t = r := by
    simp only [find_new_damages]
    have hb : ∀ ret, matchedInPickup (pickup_by_class []) t ret = false := by
      intro ret
      rw [matchedInPickup]
      rfl
    simp [hb]
  exact ⟨hmain r, by rw [hmain]; rfl, hempty⟩

/-- C8: the matcher is deterministic given fixed inputs, and raising the IoU
threshold never shrinks the new-damage result. -/
theorem find_new_damages_deterministic_monotone (p r : List DetectionRecord)
    (t t1 t2 : ℚ) (h12 : t1 ≤ t2) :
    find_new_damages p r t = find_new_damages p r t ∧
    (find_new_damages p r t1).length ≤ (find_new_damages p r t2).length := by
  refine ⟨rfl, ?_⟩
  simp only [find_new_damages]
  apply List.Sublist.length_le
  apply List.monotone_filter_right
  have key : ∀ a, matchedInPickup (pickup_by_class p) t2 a = true →
      matchedInPickup (pickup_by_class p) t1 a = true := by
    intro a ha
    rw [matchedInPickup, List.any_eq_true] at ha ⊢
    obtain ⟨cand, hc, hdec⟩ := ha
    rw [decide_eq_true_eq] at hdec
    exact ⟨cand, hc, by rw [decide_eq_true_eq]; exact le_trans h12 hdec⟩
  intro a ha
  cases hm : matchedInPickup (pickup_by_class p) t2 a with
  | false => simp [hm]
  | true =>
    rw [key a hm] at ha
    simp at ha

theorem find_new_damages_deterministic_monotone_witness :
    (0 : ℚ) ≤ 1 ∧
    (find_new_damages [] [] 0 = find_new_damages [] [] 0 ∧
      (find_new_damages [] [] 0).length ≤ (find_new_damages [] [] 1).length) :=
  ⟨by norm_num,
    find_new_damages_deterministic_monotone [] [] 0 0 1 (by norm_num)⟩

/-- C5: when the image bytes fail to decode, the analyzer fails with the
invalid-image error before any detection work; a successfully decoded image
always has positive dimensions (decoder contract), so a zero- or
negative-dimension image can only surface as a decode failure. -/
theorem analyze_invalid_image (decode : List ℕ → Option DecodedImage)
    (detect : DecodedImage → List RawDet) (names : ℕ → Option String)
    (bytes : List ℕ) :
    (decode bytes = none →
      analyze_image_bytes decode detect names bytes = .error .invalidImage) ∧
    (∀ img, decode bytes = some img → 0 < img.img_w ∧ 0 < img.img_h) := by
  constructor
  · intro hfail
    rw [analyze_image_bytes, hfail]
  · intro img _
    exact ⟨img.w_pos, img.h_pos⟩

theorem analyze_invalid_image_witness :
    analyze_image_bytes (fun _ => none) (fun _ => []) (fun _ => none) [] =
      .error .invalidImage :=
  (analyze_invalid_image (fun _ => none) (fun _ => []) (fun _ => none) []).1 rfl

/-- C6: for a decoded image the normalizer emits exactly one record per raw
detection, in order, and whenever a raw box lies within `[0,W]×[0,H]` the
normalized x, y, width and height all lie in `[0,1]`. -/
theorem normalizer_order_and_bounds (decode : List ℕ → Option DecodedImage)
    (detect : DecodedImage → List RawDet) (names : ℕ → Option String)
    (bytes : List ℕ) (img : DecodedImage) (recs : List DetectionRecord)
    (hdec : decode bytes = some img)
    (hok : analyze_image_bytes decode detect names bytes = .ok recs) :
    recs.length = (detect img).length ∧
    (∀ i (h1 : i < (detect img).length) (h2 : i < recs.length),
      recs.get ⟨i, h2⟩ =
        record_of_raw names img.img_w img.img_h ((detect img).get ⟨i, h1⟩)) ∧
    (∀ d : RawDet, 0 ≤ d.x1 → d.x1 ≤ d.x2 → d.x2 ≤ img.img_w →
      0 ≤ d.y1 → d.y1 ≤ d.y2 → d.y2 ≤ img.img_h →
      (0 ≤ (record_of_raw names img.img_w img.img_h d).x ∧
        (record_of_raw names img.img_w img.img_h d).x ≤ 1) ∧
      (0 ≤ (record_of_raw names img.img_w img.img_h d).y ∧
        (record_of_raw names img.img_w img.img_h d).y ≤ 1) ∧
      (0 ≤ (record_of_raw names img.img_w img.img_h d).width ∧
        (record_of_raw names img.img_w img.img_h d).width ≤ 1) ∧
      (0 ≤ (record_of_raw names img.img_w img.img_h d).height ∧
        (record_of_raw names img.img_w img.img_h d).height ≤ 1)) := by
  have hrecs : recs = (detect img).map (record_of_raw names img.img_w img.img_h) := by
    simp only [analyze_image_bytes, hdec] at hok
    exact (Except.ok.inj hok).symm
  subst hrecs
  have hW := img.w_pos
  have hH := img.h_pos
  refine ⟨List.length_map _ _, ?_, ?_⟩
  · intro i h1 h2
    simp [List.getElem_map]
  · intro d hx0 hx12 hxW hy0 hy12 hyH
    simp only [record_of_raw]
    refine ⟨pyRoundTo_unit (div_nonneg hx0 hW.le)
        ((div_le_one hW).mpr (le_trans hx12 hxW)), ?_, ?_, ?_⟩
    · exact pyRoundTo_unit (div_nonneg hy0 hH.le)
        ((div_le_one hH).mpr (le_trans hy12 hyH))
    · exact pyRoundTo_unit (div_nonneg (by linarith) hW.le)
        ((div_le_one hW).mpr (by linarith))
    · exact pyRoundTo_unit (div_nonneg (by linarith) hH.le)
        ((div_le_one hH).mpr (by linarith))

theorem normalizer_order_and_bounds_witness :
    ([] : List DetectionRecord).length = ([] : List RawDet).length ∧
    (∀ i (h1 : i < ([] : List RawDet).length)
        (h2 : i < ([] : List DetectionRecord).length),
      ([] : List DetectionRecord).get ⟨i, h2⟩ =
        record_of_raw (fun _ => none) sampleImage.img_w sampleImage.img_h
          (([] : List RawDet).get ⟨i, h1⟩)) ∧
    (∀ d : RawDet, 0 ≤ d.x1 → d.x1 ≤ d.x2 → d.x2 ≤ sampleImage.img_w →
      0 ≤ d.y1 → d.y1 ≤ d.y2 → d.y2 ≤ sampleImage.img_h →
      (0 ≤ (record_of_raw (fun _ => none) sampleImage.img_w sampleImage.img_h d).x ∧
        (record_of_raw (fun _ => none) sampleImage.img_w sampleImage.img_h d).x ≤ 1) ∧
      (0 ≤ (record_of_raw (fun _ => none) sampleImage.img_w sampleImage.img_h d).y ∧
        (record_of_raw (fun _ => none) sampleImage.img_w sampleImage.img_h d).y ≤ 1) ∧
      (0 ≤ (record_of_raw (fun _ => none) sampleImage.img_w sampleImage.img_h d).width ∧
        (record_of_raw (fun _ => none) sampleImage.img_w sampleImage.img_h d).width ≤ 1) ∧
      (0 ≤ (record_of_raw (fun _ => none) sampleImage.img_w sampleImage.img_h d).height ∧
        (record_of_raw (fun _ => none) sampleImage.img_w sampleImage.img_h d).height ≤ 1)) :=
  normalizer_order_and_bounds (fun _ => some sampleImage) (fun _ => [])
    (fun _ => none) [] sampleImage [] rfl rfl

end CarDamage
